import Mathlib

/-!
Verification of the LSP connection-management subsystem of the talkcody
repository.

The development shallowly embeds:
 - `src/services/lsp/lsp-connection-manager.ts` (`LspConnectionManager`),
 - the view lifecycle logic of `src/hooks/use-lsp.ts`
   (`initializeConnection`, `performCleanup`, `openDocument`, and the
   diagnostics subscription handler),
 - the diagnostics bookkeeping of `src/stores/lsp-store.ts`
   (`setDiagnostics`, `clearDiagnostics`, `clearAllDiagnostics`).

The LSP service layer (`lspService`: `startServer`, `incrementRefCount`,
`decrementRefCount`, `getServerStatus`) and the helpers of
`lsp-protocol.ts` / `lsp-servers.ts` are not part of the provided sources;
where a claim needs them they are modelled from the specification
(sections 4.1 and 9) and marked as such in their doc comments.

JavaScript `Map`s are embedded as association lists with `Map.set`
insertion-order semantics (update in place when the key exists, append
otherwise); JavaScript `Set`s of strings are embedded as duplicate-free
lists (`setAdd` keeps membership unique, deletion filters).
-/

namespace Talkcody

/-! ## Association lists (embedding of JavaScript Map) -/

/-- `Map.get`: first value stored under `key`, if any. -/
def alookup {α : Type} : List (String × α) → String → Option α
  | [], _ => none
  | (k, v) :: rest, key => if k = key then some v else alookup rest key

/-- `Map.set`: update in place when the key is present, append otherwise
(JavaScript `Map` preserves insertion order on update). -/
def aset {α : Type} (l : List (String × α)) (key : String) (v : α) :
    List (String × α) :=
  if (alookup l key).isSome then
    l.map (fun p => if p.1 = key then (key, v) else p)
  else
    l ++ [(key, v)]

/-- `Map.delete`: remove the entry stored under `key`. -/
def aerase {α : Type} (l : List (String × α)) (key : String) :
    List (String × α) :=
  l.filter (fun p => p.1 ≠ key)

/-- `Set.add` on a duplicate-free list of strings. -/
def setAdd (l : List String) (x : String) : List String :=
  if x ∈ l then l else l ++ [x]

/-- `Set.delete` on a list of strings. -/
def setDelete (l : List String) (x : String) : List String :=
  l.filter (fun y => y ≠ x)

/-! ## LspConnectionManager (src/services/lsp/lsp-connection-manager.ts) -/

/-- `LspConnection`: per-file connection info. -/
structure LspConnection where
  serverId : String
  language : String
  rootPath : String
deriving DecidableEq, Repr

/-- `ServerFileReferences`: the files using one server, keyed by
`rootPath:language`. -/
structure ServerFileReferences where
  serverId : String
  language : String
  rootPath : String
  filePaths : List String
deriving DecidableEq, Repr

/-- State of the `LspConnectionManager` singleton: the `connections` map
(file path to connection) and the `serverReferences` map
(`rootPath:language` key to server file references). -/
structure ConnMgr where
  connections : List (String × LspConnection)
  serverReferences : List (String × ServerFileReferences)
deriving DecidableEq, Repr

/-- The fresh manager (both maps empty). -/
def ConnMgr.empty : ConnMgr := ⟨[], []⟩

/-- The `rootPath:language` key used by `serverReferences`. -/
def refKey (rootPath language : String) : String :=
  rootPath ++ ":" ++ language

/-- `LspConnectionManager.getConnectionByRoot`. -/
def ConnMgr.getConnectionByRoot (m : ConnMgr) (rootPath language : String) :
    Option LspConnection :=
  match alookup m.serverReferences (refKey rootPath language) with
  | none => none
  | some refs => some ⟨refs.serverId, refs.language, refs.rootPath⟩

/-- `LspConnectionManager.register`.  Sets the file's connection entry and
adds the file to the reference set of the `rootPath:language` key, creating
the `ServerFileReferences` record if absent (note the source keeps the
existing record's `serverId` when the key is already present). -/
def ConnMgr.register (m : ConnMgr)
    (filePath serverId language rootPath : String) : ConnMgr :=
  let connections := aset m.connections filePath ⟨serverId, language, rootPath⟩
  let key := refKey rootPath language
  let refs :=
    match alookup m.serverReferences key with
    | some r => r
    | none => ⟨serverId, language, rootPath, []⟩
  let refs := { refs with filePaths := setAdd refs.filePaths filePath }
  ⟨connections, aset m.serverReferences key refs⟩

/-- `LspConnectionManager.unregister`.  Returns the
`wasLastReference` boolean together with the new state. -/
def ConnMgr.unregister (m : ConnMgr) (filePath : String) : Bool × ConnMgr :=
  match alookup m.connections filePath with
  | none => (false, m)
  | some conn =>
    let connections := aerase m.connections filePath
    let key := refKey conn.rootPath conn.language
    match alookup m.serverReferences key with
    | some refs =>
      let remaining := setDelete refs.filePaths filePath
      if remaining.length = 0 then
        (true, ⟨connections, aerase m.serverReferences key⟩)
      else
        (false,
         ⟨connections, aset m.serverReferences key { refs with filePaths := remaining }⟩)
    | none => (false, ⟨connections, m.serverReferences⟩)

/-- `LspConnectionManager.unregisterServer`: drop every file connection and
every reference record pointing at `serverId`. -/
def ConnMgr.unregisterServer (m : ConnMgr) (serverId : String) : ConnMgr :=
  ⟨m.connections.filter (fun p => p.2.serverId ≠ serverId),
   m.serverReferences.filter (fun p => p.2.serverId ≠ serverId)⟩

/-- `LspConnectionManager.getFileReferenceCount`: total size of the
reference sets whose record points at `serverId`. -/
def ConnMgr.getFileReferenceCount (m : ConnMgr) (serverId : String) : Nat :=
  m.serverReferences.foldl
    (fun acc p => if p.2.serverId = serverId then acc + p.2.filePaths.length else acc) 0

/-- Number of `connections` entries stored under `filePath` (a JavaScript
`Map` holds at most one; the association list makes it explicit). -/
def ConnMgr.connectionEntryCount (m : ConnMgr) (filePath : String) : Nat :=
  (m.connections.filter (fun p => p.1 = filePath)).length

/-- Number of occurrences of `filePath` across all reference sets;
`getFileReferenceCount` counts `filePath` "at most once" exactly when this
is at most one. -/
def ConnMgr.fileOccurrences (m : ConnMgr) (filePath : String) : Nat :=
  m.serverReferences.foldl (fun acc p => acc + p.2.filePaths.count filePath) 0

/-- The keys of an association list are duplicate-free (true of every state
that embeds a JavaScript `Map`). -/
def nodupKeys {α : Type} (l : List (String × α)) : Prop :=
  (l.map Prod.fst).Nodup

/-! ## ServerRegistry (modelled from the spec, sections 3 and 4.1) -/

/-- Modelled from the spec: the `ServerRecord.status` values of section 3.
The lsp service source (`lspService`) is not among the provided files. -/
inductive ServerStatus
  | starting
  | running
  | stopping
  | stopped
  | errored
deriving DecidableEq, Repr

/-- Modelled from the spec: `ServerRecord` of section 3. -/
structure ServerRecord where
  serverId : String
  language : String
  workspaceRoot : String
  refCount : Nat
  status : ServerStatus
deriving DecidableEq, Repr

/-- Modelled from the spec: the server registry owned by the lsp service;
`nextId` generates the unique serverIds that `start` guarantees. -/
structure Registry where
  records : List (String × ServerRecord)
  nextId : Nat
deriving DecidableEq, Repr

/-- The empty registry. -/
def Registry.empty : Registry := ⟨[], 0⟩

/-- Modelled from the spec: the fresh unique `serverId` the next `start`
call returns. -/
def freshServerId (reg : Registry) : String :=
  "srv-" ++ toString reg.nextId

/-- Modelled from the spec (4.1): `start` spawns a server scoped to the
root, creates a record with `refCount = 1` and Running status, and returns
a fresh `serverId`. -/
def Registry.startServer (reg : Registry) (language workspaceRoot : String) :
    String × Registry :=
  let sid := freshServerId reg
  (sid,
   ⟨aset reg.records sid ⟨sid, language, workspaceRoot, 1, ServerStatus.running⟩,
    reg.nextId + 1⟩)

/-- Modelled from the spec (4.1): `incrementRefCount` atomically increments
the count of a record in Running status; it returns `false` without
mutating state when the record is missing or not Running. -/
def Registry.incrementRefCount (reg : Registry) (serverId : String) :
    Bool × Registry :=
  match alookup reg.records serverId with
  | some rec =>
    if rec.status = ServerStatus.running then
      (true,
       ⟨aset reg.records serverId { rec with refCount := rec.refCount + 1 },
        reg.nextId⟩)
    else (false, reg)
  | none => (false, reg)

/-- Modelled from the spec (4.1): `decrementRefCount` decrements the count;
on reaching zero the process is terminated and the record removed;
decrementing an unknown or zero-count record is a defensive no-op. -/
def Registry.decrementRefCount (reg : Registry) (serverId : String) :
    Registry :=
  match alookup reg.records serverId with
  | some rec =>
    if rec.refCount = 0 then reg
    else if rec.refCount = 1 then ⟨aerase reg.records serverId, reg.nextId⟩
    else ⟨aset reg.records serverId { rec with refCount := rec.refCount - 1 }, reg.nextId⟩
  | none => reg

/-- Modelled from the spec (4.1): `getRefCount` snapshot; 0 for servers with
no record. -/
def Registry.getRefCount (reg : Registry) (serverId : String) : Nat :=
  match alookup reg.records serverId with
  | some rec => rec.refCount
  | none => 0

/-! ## Collaborator interfaces of the view lifecycle (use-lsp.ts) -/

/-- Result of `lspService.getServerStatus(language)` (interface only,
spec 4.1 `getStatus`): availability and downloadability of the server
binary. -/
structure ServerStatusResult where
  available : Bool
  canDownload : Bool
  downloadUrl : Option String
deriving DecidableEq, Repr

/-- Entry returned by `getServerConfig` of lsp-servers.ts (interface only):
the display name and the command of a language server. -/
structure ServerConfig where
  name : String
  command : String
deriving DecidableEq, Repr

/-- `PendingDownload` of src/stores/lsp-store.ts. -/
structure PendingDownload where
  language : String
  languageDisplayName : String
  serverName : String
  downloadUrl : Option String
deriving DecidableEq, Repr

/-- `addPendingDownload` of src/stores/lsp-store.ts: appends unless an
entry for the same language is already pending. -/
def addPendingDownload (l : List PendingDownload) (d : PendingDownload) :
    List PendingDownload :=
  if l.any (fun x => x.language = d.language) then l else l ++ [d]

/-- The `config?.command || 'unknown'` expression of use-lsp.ts (JavaScript
`||` falls through on the empty string as well as on null). -/
def configCommand (cfg : String → Option ServerConfig) (language : String) :
    String :=
  match cfg language with
  | some c => if c.command = "" then "unknown" else c.command
  | none => "unknown"

/-- The `config?.name || language` expression of use-lsp.ts. -/
def configServerName (cfg : String → Option ServerConfig) (language : String) :
    String :=
  match cfg language with
  | some c => if c.name = "" then language else c.name
  | none => language

/-! ## View state of the useLsp hook (use-lsp.ts) -/

/-- The mutable refs and React state of one `useLsp` view:
`serverIdRef`, `filePathRef`, `languageRef`, `workspaceRootRef`,
`isDocumentOpenRef`, `hasIncrementedRefRef`, and the `error` /
`isConnected` / `isLoading` / `serverId` state values. -/
structure ViewState where
  serverIdRef : Option String
  filePathRef : Option String
  languageRef : Option String
  workspaceRootRef : Option String
  isDocumentOpenRef : Bool
  hasIncrementedRefRef : Bool
  isConnected : Bool
  isLoading : Bool
  error : Option String
  serverId : Option String
deriving DecidableEq, Repr

/-- Initial view state (all refs null, all flags false). -/
def ViewState.initial : ViewState :=
  ⟨none, none, none, none, false, false, false, false, none, none⟩

/-- The lsp service calls a view issues (the trace lets the theorems count
decrement and document notifications exactly). -/
inductive ServiceCall
  | closeDocumentCall (serverId filePath : String)
  | decrementRefCountCall (serverId : String)
  | openDocumentCall (serverId filePath languageId content : String)
deriving DecidableEq, Repr

/-- The serverIds of the `decrementRefCount` calls in a trace. -/
def decrementCalls (calls : List ServiceCall) : List String :=
  calls.filterMap (fun c =>
    match c with
    | ServiceCall.decrementRefCountCall sid => some sid
    | _ => none)

/-- `performCleanup` of use-lsp.ts (the effect cleanup body): close the
document if open (fire and forget), unregister the connection, decrement
the ref count exactly when the "have I incremented" flag is set and a
serverId is recorded (clearing the flag in that case), then reset the
serverId and filePath refs. -/
def performCleanup (v : ViewState) (cm : ConnMgr) :
    ViewState × ConnMgr × List ServiceCall :=
  let closeState :=
    match v.serverIdRef, v.filePathRef with
    | some sid, some fp =>
      if v.isDocumentOpenRef then ([ServiceCall.closeDocumentCall sid fp], false)
      else ([], v.isDocumentOpenRef)
    | _, _ => ([], v.isDocumentOpenRef)
  let cm₁ :=
    match v.filePathRef with
    | some fp => (cm.unregister fp).2
    | none => cm
  let decState :=
    match v.serverIdRef with
    | some sid =>
      if v.hasIncrementedRefRef then ([ServiceCall.decrementRefCountCall sid], false)
      else ([], v.hasIncrementedRefRef)
    | none => ([], v.hasIncrementedRefRef)
  ({ v with
     serverIdRef := none,
     filePathRef := none,
     isDocumentOpenRef := closeState.2,
     hasIncrementedRefRef := decState.2 },
   cm₁, closeState.1 ++ decState.1)

/-! ## The activation sequence of useLsp as a small-step machine

`initializeConnection` of use-lsp.ts is an async function with two
suspension points: `await lspService.getServerStatus(language)` and
`await lspService.startServer(language, workspaceRoot)`.  Everything
between two suspension points runs atomically (single-threaded cooperative
concurrency, spec section 5).  The effect cleanup (unmount) can run while
the function is suspended; the `isMounted` closure flag guards only the
state commits, exactly as in the source. -/

/-- Program counter of one `initializeConnection` invocation. -/
inductive ActPhase
  | awaitingStatus
  | awaitingStart
  | finished
deriving DecidableEq, Repr

/-- Whole-system state for the lifecycle claims: the registry, the
connection manager, the pending downloads of the lsp store, one view, its
`isMounted` closure flag, the activation program counter, and the trace of
service calls issued by cleanup. -/
structure LifecycleState where
  reg : Registry
  cm : ConnMgr
  pendingDownloads : List PendingDownload
  view : ViewState
  isMounted : Bool
  phase : ActPhase
  calls : List ServiceCall
deriving DecidableEq, Repr

/-- Apply the registry effects of a trace of service calls (only
`decrementRefCount` touches the registry). -/
def applyCalls (reg : Registry) (calls : List ServiceCall) : Registry :=
  calls.foldl
    (fun r c =>
      match c with
      | ServiceCall.decrementRefCountCall sid => r.decrementRefCount sid
      | _ => r) reg

/-- Entry of `initializeConnection`: `setIsLoading(true); setError(null)`
runs synchronously, then the function suspends at the status check. -/
def beginActivation (s : LifecycleState) : LifecycleState :=
  { s with
    view := { s.view with isLoading := true, error := none },
    phase := ActPhase.awaitingStatus }

/-- The mounted-commit block of `initializeConnection` (lines guarded by
`if (isMounted)` after a serverId has been obtained): set the refs, the
serverId state and isConnected, and register the connection. -/
def commitConnection (filePath language workspaceRoot sid : String)
    (s : LifecycleState) : LifecycleState :=
  { s with
    view := { s.view with
      serverIdRef := some sid,
      languageRef := some language,
      workspaceRootRef := some workspaceRoot,
      serverId := some sid,
      isConnected := true },
    cm := s.cm.register filePath sid language workspaceRoot }

/-- The `finally { if (isMounted) setIsLoading(false) }` block. -/
def finishLoading (s : LifecycleState) : LifecycleState :=
  if s.isMounted then { s with view := { s.view with isLoading := false } }
  else s

/-- Resumption after `await lspService.getServerStatus(language)`: the
availability branches, the reuse attempt (lookup, `incrementRefCount`,
purge of a stale entry on failure) and, when reuse succeeded, the commit;
otherwise the function suspends at `await startServer`.  Note the source
guards only `setError` / `setIsLoading` / the commit by `isMounted`; the
pending-download emission and the service calls are not guarded. -/
def resumeStatus (status : ServerStatusResult)
    (cfg : String → Option ServerConfig) (displayName : String → String)
    (filePath workspaceRoot language : String) (s : LifecycleState) :
    LifecycleState :=
  if status.available = false then
    if status.canDownload then
      let pd : PendingDownload :=
        ⟨language, displayName language, configServerName cfg language,
         status.downloadUrl⟩
      let s := { s with pendingDownloads := addPendingDownload s.pendingDownloads pd }
      let s :=
        if s.isMounted then
          { s with view := { s.view with
              error := some ("LSP server for " ++ displayName language ++
                " is not installed. Click to install."),
              isLoading := false } }
        else s
      { s with phase := ActPhase.finished }
    else
      let s :=
        if s.isMounted then
          { s with view := { s.view with
              error := some ("LSP server not available. Please install: " ++
                configCommand cfg language),
              isLoading := false } }
        else s
      { s with phase := ActPhase.finished }
  else
    match s.cm.getConnectionByRoot workspaceRoot language with
    | some existing =>
      let res := s.reg.incrementRefCount existing.serverId
      if res.1 then
        let s := { s with
          reg := res.2,
          view := { s.view with hasIncrementedRefRef := true } }
        let s :=
          if s.isMounted then
            commitConnection filePath language workspaceRoot existing.serverId s
          else s
        { (finishLoading s) with phase := ActPhase.finished }
      else
        { s with
          reg := res.2,
          cm := s.cm.unregisterServer existing.serverId,
          phase := ActPhase.awaitingStart }
    | none => { s with phase := ActPhase.awaitingStart }

/-- Resumption after `await lspService.startServer(language, workspaceRoot)`:
the server is running with `refCount = 1`, the "have I incremented" flag is
set, and the commit runs only when still mounted. -/
def resumeStart (filePath workspaceRoot language : String)
    (s : LifecycleState) : LifecycleState :=
  let res := s.reg.startServer language workspaceRoot
  let s := { s with
    reg := res.2,
    view := { s.view with hasIncrementedRefRef := true } }
  let s :=
    if s.isMounted then commitConnection filePath language workspaceRoot res.1 s
    else s
  { (finishLoading s) with phase := ActPhase.finished }

/-- The effect cleanup of useLsp: clear the closure's `isMounted` flag and
run `performCleanup`, applying the decrement it issues to the registry and
recording the issued calls. -/
def unmountView (s : LifecycleState) : LifecycleState :=
  let s := { s with isMounted := false }
  let r := performCleanup s.view s.cm
  { s with
    view := r.1,
    cm := r.2.1,
    reg := applyCalls s.reg r.2.2,
    calls := s.calls ++ r.2.2 }

/-- One full, uninterrupted run of `initializeConnection` (no interleaved
deactivation): begin, resume after the status check and, if a fresh server
is needed, resume after the start. -/
def initializeConnection (status : ServerStatusResult)
    (cfg : String → Option ServerConfig) (displayName : String → String)
    (filePath workspaceRoot language : String) (s : LifecycleState) :
    LifecycleState :=
  let s := beginActivation s
  let s := resumeStatus status cfg displayName filePath workspaceRoot language s
  if s.phase = ActPhase.awaitingStart then
    resumeStart filePath workspaceRoot language s
  else s

/-- `openDocument` of use-lsp.ts: throws when not connected, skips when the
document is already open for this file, otherwise issues the open-document
notification and records the open state.  `lspLangOf` stands for
`getLspLanguageIdForPath` of lsp-servers.ts (interface only). -/
def openDocument (lspLangOf : String → Option String) (v : ViewState)
    (filePath : Option String) (content : String) :
    Except String (ViewState × List ServiceCall) :=
  match v.serverIdRef, filePath, v.languageRef with
  | some sid, some fp, some lang =>
    if v.isDocumentOpenRef = true ∧ v.filePathRef = some fp then
      Except.ok (v, [])
    else
      let lspLanguageId :=
        match lspLangOf fp with
        | some lid => if lid = "" then lang else lid
        | none => lang
      Except.ok
        ({ v with filePathRef := some fp, isDocumentOpenRef := true },
         [ServiceCall.openDocumentCall sid fp lspLanguageId content])
  | _, _, _ => Except.error "LSP server not connected"

/-! ## The diagnostics subscription handler of useLsp (use-lsp.ts) -/

/-- A range as carried by protocol diagnostics (0-indexed lines and
characters). -/
structure DiagRange where
  startLine : Nat
  startCharacter : Nat
  endLine : Nat
  endCharacter : Nat
deriving DecidableEq, Repr

/-- A diagnostic as pushed by a server (severity 1=Error, 2=Warning,
3=Info, 4=Hint, possibly absent). -/
structure ProtocolDiagnostic where
  severity : Option Nat
  message : String
  range : DiagRange
  code : Option String
deriving DecidableEq, Repr

/-- Monaco marker severities. -/
inductive MarkerSeverity
  | error
  | warning
  | info
  | hint
deriving DecidableEq, Repr

/-- `mapLspSeverity` of use-lsp.ts: 1–4 map to the four Monaco severities,
everything else (including undefined) falls back to Info. -/
def mapLspSeverity (severity : Option Nat) : MarkerSeverity :=
  match severity with
  | some 1 => MarkerSeverity.error
  | some 2 => MarkerSeverity.warning
  | some 3 => MarkerSeverity.info
  | some 4 => MarkerSeverity.hint
  | _ => MarkerSeverity.info

/-- A Monaco marker as built by the subscription handler. -/
structure MonacoMarker where
  severity : MarkerSeverity
  message : String
  startLineNumber : Nat
  startColumn : Nat
  endLineNumber : Nat
  endColumn : Nat
  source : String
  code : Option String
deriving DecidableEq, Repr

/-- The severity-visibility filter of the handler (severity 1 shown iff
showErrors, ..., anything else shown unconditionally). -/
def severityVisible (showErrors showWarnings showInfo showHints : Bool)
    (d : ProtocolDiagnostic) : Bool :=
  match d.severity with
  | some 1 => showErrors
  | some 2 => showWarnings
  | some 3 => showInfo
  | some 4 => showHints
  | _ => true

/-- The uri-to-path conversion inlined in the handler:
`uri.startsWith('file://') ? uri.slice(7) : uri`. -/
def uriPathOfEvent (uri : String) : String :=
  if uri.startsWith "file://" then uri.drop 7 else uri

/-- The `source` field of the markers:
`getLanguageIdForPath(diagnosticFilePath) || 'lsp'`. -/
def markerSource (langOf : String → Option String) (path : String) : String :=
  match langOf path with
  | some l => if l = "" then "lsp" else l
  | none => "lsp"

/-- The marker list built at the end of the handler: severity filtering
followed by the LSP-to-Monaco conversion (0-indexed to 1-indexed). -/
def buildMarkers (langOf : String → Option String)
    (showErrors showWarnings showInfo showHints : Bool)
    (diagnosticFilePath : String) (diagnostics : List ProtocolDiagnostic) :
    List MonacoMarker :=
  (diagnostics.filter (severityVisible showErrors showWarnings showInfo showHints)).map
    (fun d =>
      ⟨mapLspSeverity d.severity, d.message,
       d.range.startLine + 1, d.range.startCharacter + 1,
       d.range.endLine + 1, d.range.endCharacter + 1,
       markerSource langOf diagnosticFilePath, d.code⟩)

/-- The Monaco marker application of the diagnostics subscription of
use-lsp.ts: returns `none` exactly when the handler returns before
`setModelMarkers` (no editor/filePath, diagnostics hidden, no model, no
monaco, path mismatch, or language mismatch), and `some markers` when the
markers are applied.  `langOf` stands for `getLanguageIdForPath` of
lsp-servers.ts (interface only; language ids are nonempty strings, so
JavaScript truthiness coincides with definedness). -/
def applyDiagnosticsMarkers (langOf : String → Option String)
    (showDiagnostics showErrors showWarnings showInfo showHints : Bool)
    (editorPresent hasModel hasMonaco : Bool)
    (filePath languageRef : Option String)
    (uri : String) (diagnostics : List ProtocolDiagnostic) :
    Option (List MonacoMarker) :=
  match filePath with
  | none => none
  | some fp =>
    if editorPresent = false then none
    else if showDiagnostics = false then none
    else if hasModel = false then none
    else if hasMonaco = false then none
    else
      let diagnosticFilePath := uriPathOfEvent uri
      if diagnosticFilePath ≠ fp then none
      else
        let mismatch : Bool :=
          match langOf diagnosticFilePath, languageRef with
          | some diagnosticLang, some currentLang => diagnosticLang != currentLang
          | _, _ => false
        if mismatch then none
        else
          some (buildMarkers langOf showErrors showWarnings showInfo showHints
            diagnosticFilePath diagnostics)

/-! ## Diagnostics bookkeeping of the lsp store (src/stores/lsp-store.ts) -/

/-- The store's severity names. -/
inductive DiagSeverity
  | error
  | warning
  | info
  | hint
deriving DecidableEq, Repr

/-- `LspDiagnostic` of lsp-store.ts. -/
structure LspDiagnostic where
  id : String
  severity : DiagSeverity
  message : String
  range : DiagRange
  code : Option String
deriving DecidableEq, Repr

/-- `DiagnosticCounts` of lsp-store.ts (JavaScript numbers; embedded as
integers so the delta arithmetic is exact). -/
@[ext]
structure DiagnosticCounts where
  errors : Int
  warnings : Int
  info : Int
  hints : Int
deriving DecidableEq, Repr

/-- The zero counts. -/
def czero : DiagnosticCounts := ⟨0, 0, 0, 0⟩

/-- Componentwise sum of counts (auditing helper). -/
def cadd (a b : DiagnosticCounts) : DiagnosticCounts :=
  ⟨a.errors + b.errors, a.warnings + b.warnings, a.info + b.info,
   a.hints + b.hints⟩

/-- The `switch` body of `countDiagnostics`: increment the field of one
severity. -/
def bumpCount (counts : DiagnosticCounts) (s : DiagSeverity) :
    DiagnosticCounts :=
  match s with
  | DiagSeverity.error => { counts with errors := counts.errors + 1 }
  | DiagSeverity.warning => { counts with warnings := counts.warnings + 1 }
  | DiagSeverity.info => { counts with info := counts.info + 1 }
  | DiagSeverity.hint => { counts with hints := counts.hints + 1 }

/-- `countDiagnostics` of lsp-store.ts: count diagnostics by severity. -/
def countDiagnostics (diagnostics : List LspDiagnostic) : DiagnosticCounts :=
  diagnostics.foldl (fun counts d => bumpCount counts d.severity) czero

/-- `updateCounts` of lsp-store.ts: O(1) delta update of the totals. -/
def updateCounts (current oldFileCounts newFileCounts : DiagnosticCounts) :
    DiagnosticCounts :=
  ⟨current.errors - oldFileCounts.errors + newFileCounts.errors,
   current.warnings - oldFileCounts.warnings + newFileCounts.warnings,
   current.info - oldFileCounts.info + newFileCounts.info,
   current.hints - oldFileCounts.hints + newFileCounts.hints⟩

/-- Modelled from the spec: `severityToString` of lsp-protocol.ts is not
among the provided sources; section 9 describes it as an exhaustive 1–4
conversion with an out-of-range fallback, and the in-source analogue
`mapLspSeverity` falls back to Info. -/
def severityToString (severity : Nat) : DiagSeverity :=
  match severity with
  | 1 => DiagSeverity.error
  | 2 => DiagSeverity.warning
  | 3 => DiagSeverity.info
  | 4 => DiagSeverity.hint
  | _ => DiagSeverity.info

/-- Modelled from the spec: `uriToFilePath` of lsp-protocol.ts is not among
the provided sources; it mirrors the file-URI stripping inlined in
use-lsp.ts. -/
def uriToFilePath (uri : String) : String :=
  if uri.startsWith "file://" then uri.drop 7 else uri

/-- The `d.severity || 1` expression of `setDiagnostics` (JavaScript `||`:
undefined and 0 both fall through to 1). -/
def severityOrOne (severity : Option Nat) : Nat :=
  match severity with
  | none => 1
  | some 0 => 1
  | some k => k

/-- The conversion of protocol diagnostics to store diagnostics in
`setDiagnostics` (ids carry the file path and the index). -/
def toLspDiagnostics (filePath : String)
    (diagnostics : List ProtocolDiagnostic) : List LspDiagnostic :=
  diagnostics.enum.map (fun p =>
    ⟨"lsp-" ++ filePath ++ "-" ++ toString p.1,
     severityToString (severityOrOne p.2.severity),
     p.2.message, p.2.range, p.2.code⟩)

/-- State of the lsp store relevant to diagnostics bookkeeping: the
severity-visibility settings, the per-file diagnostics map, and the
running counts. -/
structure LspStoreState where
  showErrors : Bool
  showWarnings : Bool
  showInfo : Bool
  showHints : Bool
  diagnosticsByFile : List (String × List LspDiagnostic)
  diagnosticsCounts : DiagnosticCounts
deriving DecidableEq, Repr

/-- The initial store state of lsp-store.ts (`showHints` defaults to
false, the rest to true; no diagnostics, zero counts). -/
def LspStoreState.initial : LspStoreState :=
  ⟨true, true, true, false, [], czero⟩

/-- The severity filter of `setDiagnostics` (switch on the stored
severity names against the settings). -/
def storeSeverityVisible (s : LspStoreState) (d : LspDiagnostic) : Bool :=
  match d.severity with
  | DiagSeverity.error => s.showErrors
  | DiagSeverity.warning => s.showWarnings
  | DiagSeverity.info => s.showInfo
  | DiagSeverity.hint => s.showHints

/-- `setDiagnostics` of lsp-store.ts: convert, filter by the settings,
replace the file's entry, and update the totals by delta. -/
def setDiagnostics (s : LspStoreState) (uri : String)
    (diagnostics : List ProtocolDiagnostic) : LspStoreState :=
  let filePath := uriToFilePath uri
  let lspDiagnostics := toLspDiagnostics filePath diagnostics
  let filteredDiagnostics := lspDiagnostics.filter (storeSeverityVisible s)
  let oldDiagnostics := (alookup s.diagnosticsByFile filePath).getD []
  let oldFileCounts := countDiagnostics oldDiagnostics
  let newFileCounts := countDiagnostics filteredDiagnostics
  { s with
    diagnosticsByFile := aset s.diagnosticsByFile filePath filteredDiagnostics,
    diagnosticsCounts := updateCounts s.diagnosticsCounts oldFileCounts newFileCounts }

/-- `clearDiagnostics` of lsp-store.ts: nothing to clear when the file has
no entry; otherwise delete the entry and subtract its counts. -/
def clearDiagnostics (s : LspStoreState) (uri : String) : LspStoreState :=
  let filePath := uriToFilePath uri
  match alookup s.diagnosticsByFile filePath with
  | none => s
  | some oldDiagnostics =>
    let oldFileCounts := countDiagnostics oldDiagnostics
    { s with
      diagnosticsByFile := aerase s.diagnosticsByFile filePath,
      diagnosticsCounts := updateCounts s.diagnosticsCounts oldFileCounts czero }

/-- `clearAllDiagnostics` of lsp-store.ts. -/
def clearAllDiagnostics (s : LspStoreState) : LspStoreState :=
  { s with diagnosticsByFile := [], diagnosticsCounts := czero }

/-- The three diagnostics operations of the store. -/
inductive StoreOp
  | setDiags (uri : String) (diagnostics : List ProtocolDiagnostic)
  | clearDiags (uri : String)
  | clearAll
deriving Repr

/-- Apply one store operation. -/
def applyStoreOp (s : LspStoreState) : StoreOp → LspStoreState
  | StoreOp.setDiags uri d => setDiagnostics s uri d
  | StoreOp.clearDiags uri => clearDiagnostics s uri
  | StoreOp.clearAll => clearAllDiagnostics s

/-- Run a sequence of store operations from the initial state. -/
def runStoreOps (ops : List StoreOp) : LspStoreState :=
  ops.foldl applyStoreOp LspStoreState.initial

/-- The auditing recount: per-severity counts of all diagnostics currently
stored in `diagnosticsByFile`. -/
def recount : List (String × List LspDiagnostic) → DiagnosticCounts
  | [] => czero
  | p :: rest => cadd (countDiagnostics p.2) (recount rest)

/-- Concrete system state used to evaluate the reuse path: one Running
server `srv-1` with refCount 1, and one registered file pointing at it. -/
def c2Sys : LifecycleState :=
  ⟨⟨[("srv-1", ⟨"srv-1", "typescript", "/repo", 1, ServerStatus.running⟩)], 2⟩,
   ConnMgr.empty.register "/repo/a.ts" "srv-1" "typescript" "/repo",
   [], ViewState.initial, true, ActPhase.finished, []⟩

/-- The interleaving of claim C3: a view begins activating (suspended at
the status check), is unmounted (cleanup runs, with nothing yet to
release), then the activation resumes — the status check reports the
server available, no existing connection is found, and the suspended
`startServer` completes after the unmount. -/
def c3Run : LifecycleState :=
  let s0 : LifecycleState :=
    ⟨Registry.empty, ConnMgr.empty, [], ViewState.initial, true,
     ActPhase.finished, []⟩
  let s1 := beginActivation s0
  let s2 := unmountView s1
  let s3 := resumeStatus ⟨true, false, none⟩ (fun _ => none) (fun l => l)
    "/repo/a.ts" "/repo" "typescript" s2
  resumeStart "/repo/a.ts" "/repo" "typescript" s3

/-! ## Association-list lemmas -/

theorem alookup_append {α : Type} (l₁ l₂ : List (String × α)) (k : String) :
    alookup (l₁ ++ l₂) k =
      match alookup l₁ k with
      | some v => some v
      | none => alookup l₂ k := by
  induction l₁ with
  | nil => simp [alookup]
  | cons p rest ih =>
    obtain ⟨k₁, v₁⟩ := p
    by_cases h : k₁ = k
    · subst h; simp [alookup]
    · simp [alookup, h, ih]

theorem alookup_eq_none_iff {α : Type} (l : List (String × α)) (k : String) :
    alookup l k = none ↔ ∀ p ∈ l, p.1 ≠ k := by
  induction l with
  | nil => simp [alookup]
  | cons p rest ih =>
    obtain ⟨k₁, v₁⟩ := p
    by_cases h : k₁ = k
    · subst h; simp [alookup]
    · simp [alookup, h, ih]

theorem map_replace_of_absent {α : Type} {l : List (String × α)} {k : String}
    (v : α) (h : alookup l k = none) :
    l.map (fun p => if p.1 = k then (k, v) else p) = l := by
  induction l with
  | nil => simp
  | cons p rest ih =>
    obtain ⟨k₁, v₁⟩ := p
    rw [alookup_eq_none_iff] at h
    have hp : k₁ ≠ k := h (k₁, v₁) (by simp)
    have hrest : alookup rest k = none := by
      rw [alookup_eq_none_iff]
      intro q hq
      exact h q (by simp [hq])
    simp [hp, ih hrest]

theorem alookup_map_replace {α : Type} (l : List (String × α)) (k : String)
    (v : α) :
    alookup (l.map (fun p => if p.1 = k then (k, v) else p)) k =
      if (alookup l k).isSome then some v else none := by
  induction l with
  | nil => simp [alookup]
  | cons p rest ih =>
    obtain ⟨k₁, v₁⟩ := p
    by_cases h : k₁ = k
    · subst h
      simp only [List.map_cons, if_true, eq_self_iff_true]
      simp [alookup]
    · simp only [List.map_cons, if_neg h]
      simp [alookup, h, ih]

theorem alookup_map_replace_ne {α : Type} (l : List (String × α))
    (k k' : String) (v : α) (h : k' ≠ k) :
    alookup (l.map (fun p => if p.1 = k then (k, v) else p)) k' =
      alookup l k' := by
  induction l with
  | nil => simp
  | cons p rest ih =>
    obtain ⟨k₁, v₁⟩ := p
    by_cases h₁ : k₁ = k
    · subst h₁
      have h' : ¬(k₁ = k') := fun hc => h hc.symm
      simp only [List.map_cons, if_true, eq_self_iff_true]
      simp [alookup, h', ih]
    · simp only [List.map_cons, if_neg h₁]
      by_cases h₂ : k₁ = k'
      · subst h₂; simp [alookup, ih]
      · simp [alookup, h₂, ih]

theorem alookup_of_not_isSome {α : Type} {l : List (String × α)} {k : String}
    (h : ¬(alookup l k).isSome) : alookup l k = none := by
  cases heq : alookup l k with
  | none => rfl
  | some w => rw [heq] at h; simp at h

theorem alookup_aset_self {α : Type} (l : List (String × α)) (k : String)
    (v : α) : alookup (aset l k v) k = some v := by
  unfold aset
  by_cases h : (alookup l k).isSome
  · simp [h, alookup_map_replace]
  · rw [if_neg h, alookup_append]
    simp [alookup_of_not_isSome h, alookup]

theorem alookup_aset_ne {α : Type} (l : List (String × α)) (k k' : String)
    (v : α) (h : k' ≠ k) : alookup (aset l k v) k' = alookup l k' := by
  unfold aset
  by_cases hs : (alookup l k).isSome
  · rw [if_pos hs]
    exact alookup_map_replace_ne l k k' v h
  · rw [if_neg hs, alookup_append]
    have h' : ¬(k = k') := fun hc => h hc.symm
    cases heq : alookup l k' with
    | some w => simp
    | none => simp [alookup, h']

theorem aset_of_isSome {α : Type} (l : List (String × α)) (k : String)
    (v : α) (h : (alookup l k).isSome) :
    aset l k v = l.map (fun p => if p.1 = k then (k, v) else p) := by
  unfold aset
  rw [if_pos h]

theorem aset_aset_same {α : Type} (l : List (String × α)) (k : String)
    (v : α) : aset (aset l k v) k v = aset l k v := by
  rw [aset_of_isSome (aset l k v) k v (by rw [alookup_aset_self]; rfl)]
  unfold aset
  by_cases h : (alookup l k).isSome
  · rw [if_pos h, List.map_map]
    apply List.map_congr_left
    intro p _
    obtain ⟨k₁, v₁⟩ := p
    by_cases hp : k₁ = k <;> simp [Function.comp, hp]
  · rw [if_neg h]
    rw [List.map_append, map_replace_of_absent v (alookup_of_not_isSome h)]
    simp

theorem alookup_aerase_self {α : Type} (l : List (String × α)) (k : String) :
    alookup (aerase l k) k = none := by
  induction l with
  | nil => simp [aerase, alookup]
  | cons p rest ih =>
    obtain ⟨k₁, v₁⟩ := p
    by_cases h : k₁ = k
    · simpa [aerase, alookup, h] using ih
    · simpa [aerase, alookup, h] using ih

theorem filter_key_of_absent {α : Type} {l : List (String × α)} {k : String}
    (h : alookup l k = none) : l.filter (fun p => p.1 = k) = [] := by
  rw [alookup_eq_none_iff] at h
  rw [List.filter_eq_nil_iff]
  intro p hp
  simp [h p hp]

theorem setAdd_mem_self (l : List String) (x : String) : x ∈ setAdd l x := by
  unfold setAdd
  by_cases h : x ∈ l <;> simp [h]

theorem setAdd_of_mem {l : List String} {x : String} (h : x ∈ l) :
    setAdd l x = l := by
  simp [setAdd, h]

theorem setAdd_idem (l : List String) (x : String) :
    setAdd (setAdd l x) x = setAdd l x :=
  setAdd_of_mem (setAdd_mem_self l x)

theorem filter_key_aset {α : Type} (l : List (String × α)) (k : String)
    (v : α) (h : nodupKeys l) :
    ((aset l k v).filter (fun p => p.1 = k)).length = 1 := by
  by_cases hs : (alookup l k).isSome
  · rw [aset_of_isSome l k v hs]
    induction l with
    | nil => simp [alookup] at hs
    | cons p rest ih =>
      obtain ⟨k₁, v₁⟩ := p
      by_cases h₁ : k₁ = k
      · subst h₁
        have hk : k₁ ∉ rest.map Prod.fst := by
          have h' := h
          unfold nodupKeys at h'
          simp only [List.map_cons] at h'
          exact (List.nodup_cons.mp h').1
        have hnotin : alookup rest k₁ = none := by
          rw [alookup_eq_none_iff]
          intro q hq hqk
          exact hk (hqk ▸ List.mem_map_of_mem Prod.fst hq)
        simp only [List.map_cons, if_true, eq_self_iff_true]
        rw [map_replace_of_absent v hnotin]
        simp [filter_key_of_absent hnotin]
      · simp only [List.map_cons, if_neg h₁]
        have hrest : (alookup rest k).isSome := by
          simp [alookup, h₁] at hs
          exact hs
        have hnodup : nodupKeys rest := by
          unfold nodupKeys at h ⊢
          simp [List.nodup_cons] at h
          exact h.2
        have := ih hnodup hrest
        simp [h₁, this]
  · unfold aset
    rw [if_neg hs]
    rw [List.filter_append]
    rw [filter_key_of_absent (alookup_of_not_isSome hs)]
    simp

/-! ## Claim theorems for the connection manager -/

/-- C4 counterexample: the claim is false as stated.  Registering the same
file twice with the same `serverId` but two different workspace roots
leaves exactly one `FileConnection`, yet `getFileReferenceCount` of that
server returns 2 because the file is still present in the reference set of
the first `rootPath:language` key — the file is counted twice. -/
theorem c4_counterexample :
    ((ConnMgr.empty.register "f" "s" "ts" "/a").register "f" "s" "ts" "/b").connectionEntryCount "f" = 1 ∧
    ((ConnMgr.empty.register "f" "s" "ts" "/a").register "f" "s" "ts" "/b").getFileReferenceCount "s" = 2 ∧
    ((ConnMgr.empty.register "f" "s" "ts" "/a").register "f" "s" "ts" "/b").fileOccurrences "f" = 2 := by
  decide

/-- C4 (amended): when the second `register` call passes the same
arguments as the first (re-registering the same file for the same server
and the same `(workspaceRoot, language)` key), it updates rather than
duplicates: the second call is a no-op on the whole manager state, and
exactly one `FileConnection` exists for `filePath` afterwards, so
`getFileReferenceCount` counts `filePath` at most once. -/
theorem c4_register_idempotent (m : ConnMgr) (f s l r : String)
    (hm : nodupKeys m.connections) :
    (m.register f s l r).register f s l r = m.register f s l r ∧
    (m.register f s l r).connectionEntryCount f = 1 := by
  constructor
  · unfold ConnMgr.register
    simp only [alookup_aset_self, aset_aset_same, setAdd_idem]
  · unfold ConnMgr.register ConnMgr.connectionEntryCount
    exact filter_key_aset m.connections f _ hm

/-- C4 witness: the amended statement evaluated on a concrete state. -/
theorem c4_register_idempotent_witness :
    ((ConnMgr.empty.register "f" "s" "ts" "/a").register "f" "s" "ts" "/a" =
      ConnMgr.empty.register "f" "s" "ts" "/a") ∧
    (ConnMgr.empty.register "f" "s" "ts" "/a").connectionEntryCount "f" = 1 :=
  c4_register_idempotent ConnMgr.empty "f" "s" "ts" "/a" (by simp [nodupKeys, ConnMgr.empty])

/-- C5: for every registered `filePath`, `unregister` removes that file's
`FileConnection`, and returns `true` exactly when the removal emptied the
set of files pointing at that connection's `rootPath:language` key; when it
returns `true` the key's reference entry is removed as well. -/
theorem c5_unregister_reports_last_reference (m : ConnMgr) (f : String)
    (conn : LspConnection) (h : alookup m.connections f = some conn) :
    alookup (m.unregister f).2.connections f = none ∧
    ((m.unregister f).1 = true ↔
      ∃ refs, alookup m.serverReferences (refKey conn.rootPath conn.language) = some refs ∧
        setDelete refs.filePaths f = []) ∧
    ((m.unregister f).1 = true →
      alookup (m.unregister f).2.serverReferences (refKey conn.rootPath conn.language) = none) := by
  unfold ConnMgr.unregister
  rw [h]
  cases hr : alookup m.serverReferences (refKey conn.rootPath conn.language) with
  | none =>
    simp [alookup_aerase_self, hr]
  | some refs =>
    by_cases hl : (setDelete refs.filePaths f).length = 0
    · have hnil : setDelete refs.filePaths f = [] := List.length_eq_zero.mp hl
      simp [hr, hl, alookup_aerase_self, hnil]
    · have hne : ¬(setDelete refs.filePaths f = []) := fun hc => hl (by rw [hc]; rfl)
      simp [hr, hl, alookup_aerase_self, hne]

/-- C5 witness: the theorem applied to a one-file state, where unregister
reports the last reference and deletes the key entry. -/
theorem c5_unregister_reports_last_reference_witness :
    alookup ((ConnMgr.empty.register "f" "s" "ts" "/a").unregister "f").2.connections "f" = none ∧
    (((ConnMgr.empty.register "f" "s" "ts" "/a").unregister "f").1 = true ↔
      ∃ refs, alookup (ConnMgr.empty.register "f" "s" "ts" "/a").serverReferences
          (refKey (LspConnection.mk "s" "ts" "/a").rootPath (LspConnection.mk "s" "ts" "/a").language) = some refs ∧
        setDelete refs.filePaths "f" = []) ∧
    (((ConnMgr.empty.register "f" "s" "ts" "/a").unregister "f").1 = true →
      alookup ((ConnMgr.empty.register "f" "s" "ts" "/a").unregister "f").2.serverReferences
        (refKey (LspConnection.mk "s" "ts" "/a").rootPath (LspConnection.mk "s" "ts" "/a").language) = none) :=
  c5_unregister_reports_last_reference (ConnMgr.empty.register "f" "s" "ts" "/a") "f"
    (LspConnection.mk "s" "ts" "/a") (by decide)

/-- C6: `unregister` on a path with no registered connection returns the
defined not-found result `false` (the operation is total, it cannot throw)
and leaves the manager state — and therefore every reference count, since
the operation never touches the server registry — unchanged. -/
theorem c6_unregister_unknown_path (m : ConnMgr) (f : String)
    (h : alookup m.connections f = none) :
    m.unregister f = (false, m) := by
  unfold ConnMgr.unregister
  rw [h]

/-- C6 witness: unregister of an unknown path on the empty manager. -/
theorem c6_unregister_unknown_path_witness :
    ConnMgr.empty.unregister "x" = (false, ConnMgr.empty) :=
  c6_unregister_unknown_path ConnMgr.empty "x" (by decide)

/-! ## Claim theorems for the view lifecycle -/

theorem alookup_mem {α : Type} {l : List (String × α)} {k : String} {v : α}
    (h : alookup l k = some v) : (k, v) ∈ l := by
  induction l with
  | nil => simp [alookup] at h
  | cons p rest ih =>
    obtain ⟨k₁, v₁⟩ := p
    by_cases hk : k₁ = k
    · subst hk
      simp [alookup] at h
      simp [h]
    · simp [alookup, hk] at h
      simp [ih h]

theorem alookup_aset_cases {α : Type} {l : List (String × α)} {k k' : String}
    {v w : α} (h : alookup (aset l k v) k' = some w) :
    (k' = k ∧ w = v) ∨ (¬k' = k ∧ alookup l k' = some w) := by
  by_cases hk : k' = k
  · subst hk
    rw [alookup_aset_self] at h
    exact Or.inl ⟨rfl, (Option.some.inj h).symm⟩
  · rw [alookup_aset_ne l k k' v hk] at h
    exact Or.inr ⟨hk, h⟩

theorem unregisterServer_purges (m : ConnMgr) (sid : String) :
    (∀ k r, alookup (m.unregisterServer sid).serverReferences k = some r →
      r.serverId ≠ sid) ∧
    (∀ f c, alookup (m.unregisterServer sid).connections f = some c →
      c.serverId ≠ sid) := by
  constructor
  · intro k r h
    have hmem := alookup_mem h
    unfold ConnMgr.unregisterServer at hmem
    simp only [List.mem_filter] at hmem
    have := hmem.2
    simpa using this
  · intro f c h
    have hmem := alookup_mem h
    unfold ConnMgr.unregisterServer at hmem
    simp only [List.mem_filter] at hmem
    have := hmem.2
    simpa using this

theorem incrementRefCount_fail_id (reg : Registry) (sid : String)
    (h : (reg.incrementRefCount sid).1 = false) :
    (reg.incrementRefCount sid).2 = reg := by
  unfold Registry.incrementRefCount at h ⊢
  cases hr : alookup reg.records sid with
  | none => simp [hr]
  | some rec =>
    by_cases hs : rec.status = ServerStatus.running
    · rw [hr] at h
      simp [hs] at h
    · simp [hr, hs]

theorem addPendingDownload_any (l : List PendingDownload) (d : PendingDownload) :
    ((addPendingDownload l d).any (fun x => x.language = d.language)) = true := by
  unfold addPendingDownload
  by_cases h : l.any (fun x => x.language = d.language) = true
  · simp [h]
  · rw [if_neg h]
    simp [List.any_append]

/-- C1: when cleanup runs on a view whose "have I incremented" flag is set
and whose acquired serverId is recorded, it issues exactly one
`decrementRefCount` against that serverId and clears the flag; when the
flag was never set, cleanup issues no `decrementRefCount` at all. -/
theorem c1_cleanup_decrements_iff_flag (v : ViewState) (cm : ConnMgr)
    (sid : String) :
    (v.hasIncrementedRefRef = true → v.serverIdRef = some sid →
      decrementCalls (performCleanup v cm).2.2 = [sid] ∧
      (performCleanup v cm).1.hasIncrementedRefRef = false) ∧
    (v.hasIncrementedRefRef = false →
      decrementCalls (performCleanup v cm).2.2 = []) := by
  constructor
  · intro hflag hsid
    cases hfp : v.filePathRef with
    | none =>
      simp [performCleanup, hflag, hsid, hfp, decrementCalls]
    | some fp =>
      by_cases hopen : v.isDocumentOpenRef = true <;>
        simp [performCleanup, hflag, hsid, hfp, hopen, decrementCalls]
  · intro hflag
    cases hsid2 : v.serverIdRef with
    | none =>
      cases hfp : v.filePathRef with
      | none => simp [performCleanup, hflag, hsid2, hfp, decrementCalls]
      | some fp =>
        by_cases hopen : v.isDocumentOpenRef = true <;>
          simp [performCleanup, hflag, hsid2, hfp, hopen, decrementCalls]
    | some sid2 =>
      cases hfp : v.filePathRef with
      | none => simp [performCleanup, hflag, hsid2, hfp, decrementCalls]
      | some fp =>
        by_cases hopen : v.isDocumentOpenRef = true <;>
          simp [performCleanup, hflag, hsid2, hfp, hopen, decrementCalls]

/-- C1 witness: cleanup of a view that acquired `srv-1` decrements it
exactly once and clears the flag. -/
theorem c1_cleanup_decrements_iff_flag_witness :
    decrementCalls
      (performCleanup
        ⟨some "srv-1", some "/repo/a.ts", some "typescript", some "/repo",
         false, true, true, false, none, some "srv-1"⟩ ConnMgr.empty).2.2 = ["srv-1"] ∧
    (performCleanup
      ⟨some "srv-1", some "/repo/a.ts", some "typescript", some "/repo",
       false, true, true, false, none, some "srv-1"⟩ ConnMgr.empty).1.hasIncrementedRefRef = false :=
  (c1_cleanup_decrements_iff_flag
    ⟨some "srv-1", some "/repo/a.ts", some "typescript", some "/repo",
     false, true, true, false, none, some "srv-1"⟩ ConnMgr.empty "srv-1").1 rfl rfl

/-- C2: on activation with the server available and an existing connection
found for the workspace root and language, a successful `incrementRefCount`
makes the view reuse that serverId with no new server started and no error;
a failed `incrementRefCount` (lost race) makes the view purge every index
entry of the stale serverId via `unregisterServer`, start exactly one fresh
server and connect to it, again with no error surfaced. -/
theorem c2_reuse_or_fresh_start (status : ServerStatusResult)
    (cfg : String → Option ServerConfig) (displayName : String → String)
    (filePath workspaceRoot language : String) (s : LifecycleState)
    (conn : LspConnection)
    (hmount : s.isMounted = true) (havail : status.available = true)
    (hfound : s.cm.getConnectionByRoot workspaceRoot language = some conn) :
    ((s.reg.incrementRefCount conn.serverId).1 = true →
      (initializeConnection status cfg displayName filePath workspaceRoot
          language s).view.serverIdRef = some conn.serverId ∧
      (initializeConnection status cfg displayName filePath workspaceRoot
          language s).reg.nextId = s.reg.nextId ∧
      (∀ sid, (alookup (initializeConnection status cfg displayName filePath
          workspaceRoot language s).reg.records sid).isSome =
        (alookup s.reg.records sid).isSome) ∧
      (initializeConnection status cfg displayName filePath workspaceRoot
          language s).view.error = none ∧
      (initializeConnection status cfg displayName filePath workspaceRoot
          language s).view.isConnected = true) ∧
    ((s.reg.incrementRefCount conn.serverId).1 = false →
      conn.serverId ≠ freshServerId s.reg →
      (initializeConnection status cfg displayName filePath workspaceRoot
          language s).view.serverIdRef = some (freshServerId s.reg) ∧
      (initializeConnection status cfg displayName filePath workspaceRoot
          language s).reg.nextId = s.reg.nextId + 1 ∧
      (initializeConnection status cfg displayName filePath workspaceRoot
          language s).view.error = none ∧
      (initializeConnection status cfg displayName filePath workspaceRoot
          language s).view.isConnected = true ∧
      (∀ k r, alookup (initializeConnection status cfg displayName filePath
          workspaceRoot language s).cm.serverReferences k = some r →
        r.serverId ≠ conn.serverId) ∧
      (∀ f c, alookup (initializeConnection status cfg displayName filePath
          workspaceRoot language s).cm.connections f = some c →
        c.serverId ≠ conn.serverId)) := by
  constructor
  · intro hsucc
    unfold Registry.incrementRefCount at hsucc
    cases hr : alookup s.reg.records conn.serverId with
    | none => rw [hr] at hsucc; simp at hsucc
    | some rec =>
      rw [hr] at hsucc
      by_cases hs : rec.status = ServerStatus.running
      · simp [initializeConnection, beginActivation, resumeStatus, havail,
          hfound, Registry.incrementRefCount, hr, hs, commitConnection,
          finishLoading, hmount]
        intro sid
        by_cases hid : sid = conn.serverId
        · subst hid
          rw [alookup_aset_self]
          simp [hr]
        · rw [alookup_aset_ne _ _ _ _ hid]
      · simp [hs] at hsucc
  · intro hfail hfresh
    have hreg2 : (s.reg.incrementRefCount conn.serverId).2 = s.reg :=
      incrementRefCount_fail_id s.reg conn.serverId hfail
    have hpurge := unregisterServer_purges s.cm conn.serverId
    simp [initializeConnection, beginActivation, resumeStatus, havail,
      hfound, hfail, hreg2, resumeStart, Registry.startServer,
      commitConnection, finishLoading, hmount, ConnMgr.register]
    refine ⟨?_, ?_⟩
    · intro k r h
      rcases alookup_aset_cases h with ⟨hk, hrw⟩ | ⟨hk, hl⟩
      · subst hrw
        cases hm : alookup (s.cm.unregisterServer conn.serverId).serverReferences
            (refKey workspaceRoot language) with
        | some r0 =>
          simp only [hm]
          exact hpurge.1 _ r0 hm
        | none =>
          simp only [hm]
          exact fun hc => hfresh hc.symm
      · exact hpurge.1 k r hl
    · intro f c h
      rcases alookup_aset_cases h with ⟨hk, hrw⟩ | ⟨hk, hl⟩
      · subst hrw
        exact fun hc => hfresh hc.symm
      · exact hpurge.2 f c hl

/-- C2 witness: the reuse branch evaluated on a concrete one-server
state. -/
theorem c2_reuse_or_fresh_start_witness :
    (initializeConnection ⟨true, false, none⟩ (fun _ => none) (fun l => l)
        "/repo/b.ts" "/repo" "typescript" c2Sys).view.serverIdRef =
      some "srv-1" ∧
    (initializeConnection ⟨true, false, none⟩ (fun _ => none) (fun l => l)
        "/repo/b.ts" "/repo" "typescript" c2Sys).reg.nextId =
      c2Sys.reg.nextId ∧
    (initializeConnection ⟨true, false, none⟩ (fun _ => none) (fun l => l)
        "/repo/b.ts" "/repo" "typescript" c2Sys).view.error = none :=
  ⟨((c2_reuse_or_fresh_start ⟨true, false, none⟩ (fun _ => none) (fun l => l)
      "/repo/b.ts" "/repo" "typescript" c2Sys ⟨"srv-1", "typescript", "/repo"⟩
      rfl rfl (by decide)).1 (by decide)).1,
   ((c2_reuse_or_fresh_start ⟨true, false, none⟩ (fun _ => none) (fun l => l)
      "/repo/b.ts" "/repo" "typescript" c2Sys ⟨"srv-1", "typescript", "/repo"⟩
      rfl rfl (by decide)).1 (by decide)).2.1,
   ((c2_reuse_or_fresh_start ⟨true, false, none⟩ (fun _ => none) (fun l => l)
      "/repo/b.ts" "/repo" "typescript" c2Sys ⟨"srv-1", "typescript", "/repo"⟩
      rfl rfl (by decide)).1 (by decide)).2.2.2.1⟩

/-- C3: the claim fails on the code.  In the interleaving `c3Run` — the
view is deactivated while its activation is suspended, after which the
suspended `startServer` completes — the acquired reference is never
released: the server keeps `refCount = 1` with no registered file, no
`decrementRefCount` is ever issued (the cleanup already ran, and even
running it again would release nothing because `serverIdRef` was never
committed), and the "have I incremented" flag is stranded set. -/
theorem c3_post_unmount_acquisition_leaks :
    c3Run.reg.getRefCount "srv-0" = 1 ∧
    decrementCalls c3Run.calls = [] ∧
    c3Run.view.hasIncrementedRefRef = true ∧
    c3Run.isMounted = false ∧
    c3Run.view.serverIdRef = none ∧
    alookup c3Run.cm.connections "/repo/a.ts" = none ∧
    decrementCalls (performCleanup c3Run.view c3Run.cm).2.2 = [] := by
  decide

/-- C7: on activation with the server unavailable, no server is ever
started and the connection manager is untouched; when it is also not
downloadable the view ends Errored with a message naming the missing
command; when it is downloadable a PendingDownload for the language is
emitted, the view ends Errored pending user action, and nothing else
happens (no auto-download: the registry and manager are unchanged). -/
theorem c7_unavailable_server (status : ServerStatusResult)
    (cfg : String → Option ServerConfig) (displayName : String → String)
    (filePath workspaceRoot language : String) (s : LifecycleState)
    (hmount : s.isMounted = true) (hna : status.available = false) :
    (initializeConnection status cfg displayName filePath workspaceRoot
        language s).reg = s.reg ∧
    (initializeConnection status cfg displayName filePath workspaceRoot
        language s).cm = s.cm ∧
    (initializeConnection status cfg displayName filePath workspaceRoot
        language s).view.isConnected = s.view.isConnected ∧
    (initializeConnection status cfg displayName filePath workspaceRoot
        language s).view.isLoading = false ∧
    (status.canDownload = false →
      (initializeConnection status cfg displayName filePath workspaceRoot
          language s).view.error =
        some ("LSP server not available. Please install: " ++
          configCommand cfg language) ∧
      (initializeConnection status cfg displayName filePath workspaceRoot
          language s).pendingDownloads = s.pendingDownloads) ∧
    (status.canDownload = true →
      (initializeConnection status cfg displayName filePath workspaceRoot
          language s).view.error =
        some ("LSP server for " ++ displayName language ++
          " is not installed. Click to install.") ∧
      ((initializeConnection status cfg displayName filePath workspaceRoot
          language s).pendingDownloads.any
        (fun d => d.language = language)) = true) := by
  cases hcd : status.canDownload with
  | true =>
    have := addPendingDownload_any s.pendingDownloads
      ⟨language, displayName language, configServerName cfg language,
       status.downloadUrl⟩
    simp [initializeConnection, beginActivation, resumeStatus, hna, hcd,
      hmount, this]
  | false =>
    simp [initializeConnection, beginActivation, resumeStatus, hna, hcd,
      hmount]

/-- C7 witness: a not-available, not-downloadable language on a fresh
system. -/
theorem c7_unavailable_server_witness :
    (initializeConnection ⟨false, false, none⟩ (fun _ => none) (fun l => l)
        "/repo/a.rs" "/repo" "rust"
        ⟨Registry.empty, ConnMgr.empty, [], ViewState.initial, true,
         ActPhase.finished, []⟩).reg = Registry.empty ∧
    (initializeConnection ⟨false, false, none⟩ (fun _ => none) (fun l => l)
        "/repo/a.rs" "/repo" "rust"
        ⟨Registry.empty, ConnMgr.empty, [], ViewState.initial, true,
         ActPhase.finished, []⟩).view.error =
      some ("LSP server not available. Please install: " ++
        configCommand (fun _ => none) "rust") :=
  ⟨(c7_unavailable_server ⟨false, false, none⟩ (fun _ => none) (fun l => l)
      "/repo/a.rs" "/repo" "rust"
      ⟨Registry.empty, ConnMgr.empty, [], ViewState.initial, true,
       ActPhase.finished, []⟩ rfl rfl).1,
   ((c7_unavailable_server ⟨false, false, none⟩ (fun _ => none) (fun l => l)
      "/repo/a.rs" "/repo" "rust"
      ⟨Registry.empty, ConnMgr.empty, [], ViewState.initial, true,
       ActPhase.finished, []⟩ rfl rfl).2.2.2.2.1 rfl).1⟩

/-- C8: a diagnostics event whose inferred language (from the event's file
path) differs from the language of the view's current connection — both
defined — is discarded by the subscription handler: no markers from it are
applied to the editor. -/
theorem c8_language_mismatch_discards (langOf : String → Option String)
    (showDiagnostics showErrors showWarnings showInfo showHints : Bool)
    (editorPresent hasModel hasMonaco : Bool)
    (filePath languageRef : Option String) (uri : String)
    (diagnostics : List ProtocolDiagnostic) (dl cl : String)
    (hdl : langOf (uriPathOfEvent uri) = some dl)
    (hcl : languageRef = some cl) (hne : dl ≠ cl) :
    applyDiagnosticsMarkers langOf showDiagnostics showErrors showWarnings
      showInfo showHints editorPresent hasModel hasMonaco filePath languageRef
      uri diagnostics = none := by
  subst hcl
  cases filePath with
  | none => rfl
  | some fp =>
    simp only [applyDiagnosticsMarkers]
    by_cases h1 : editorPresent = false
    · simp [h1]
    · rw [if_neg h1]
      by_cases h2 : showDiagnostics = false
      · simp [h2]
      · rw [if_neg h2]
        by_cases h3 : hasModel = false
        · simp [h3]
        · rw [if_neg h3]
          by_cases h4 : hasMonaco = false
          · simp [h4]
          · rw [if_neg h4]
            by_cases h5 : uriPathOfEvent uri ≠ fp
            · simp [h5]
            · rw [if_neg h5]
              simp only [hdl]
              have : (dl != cl) = true := by
                simp [bne_iff_ne]
                exact hne
              simp [this]

/-- C8 witness: a typescript-path event against a python connection is
dropped. -/
theorem c8_language_mismatch_discards_witness :
    applyDiagnosticsMarkers (fun _ => some "typescript") true true true true
      true true true true (some "/repo/a.ts") (some "python")
      "file:///repo/a.ts" [] = none :=
  c8_language_mismatch_discards (fun _ => some "typescript") true true true
    true true true true true (some "/repo/a.ts") (some "python")
    "file:///repo/a.ts" [] "typescript" "python" rfl rfl (by decide)

/-- C10: a second `openDocument` call for a file whose document is already
open (open flag set and tracked path equal to the current path) is a no-op:
it returns the same view state and sends no open-document notification. -/
theorem c10_open_document_idempotent (lspLangOf : String → Option String)
    (v : ViewState) (fp content content₂ : String)
    (p : ViewState × List ServiceCall)
    (h : openDocument lspLangOf v (some fp) content = Except.ok p) :
    openDocument lspLangOf p.1 (some fp) content₂ = Except.ok (p.1, []) := by
  obtain ⟨sidO, fpO, langO, wrO, docOpen, hasInc, conn, load, err, sidState⟩ := v
  cases sidO with
  | none => simp [openDocument] at h
  | some sid =>
    cases langO with
    | none => simp [openDocument] at h
    | some lang =>
      by_cases hcond : docOpen = true ∧ fpO = some fp
      · simp only [openDocument] at h
        rw [if_pos hcond] at h
        have hp := (Except.ok.inj h).symm
        subst hp
        simp only [openDocument]
        rw [if_pos hcond]
      · simp only [openDocument] at h
        rw [if_neg hcond] at h
        have hp := (Except.ok.inj h).symm
        subst hp
        simp [openDocument]

/-- C10 witness: opening the same file right after a successful open is a
no-op. -/
theorem c10_open_document_idempotent_witness :
    openDocument (fun _ => some "typescript")
      ({ ViewState.initial with
         serverIdRef := some "srv-1", languageRef := some "typescript",
         filePathRef := some "/repo/a.ts", isDocumentOpenRef := true }) (some "/repo/a.ts") "body2" =
      Except.ok (({ ViewState.initial with
         serverIdRef := some "srv-1", languageRef := some "typescript",
         filePathRef := some "/repo/a.ts", isDocumentOpenRef := true } : ViewState), []) :=
  c10_open_document_idempotent (fun _ => some "typescript")
    ({ ViewState.initial with
       serverIdRef := some "srv-1", languageRef := some "typescript" })
    "/repo/a.ts" "body" "body2"
    (({ ViewState.initial with
        serverIdRef := some "srv-1", languageRef := some "typescript",
        filePathRef := some "/repo/a.ts", isDocumentOpenRef := true } : ViewState),
     [ServiceCall.openDocumentCall "srv-1" "/repo/a.ts" "typescript" "body"])
    rfl


/-! ## Claim theorem for the diagnostics counts (lsp-store.ts) -/

theorem bump_eq_cadd (c : DiagnosticCounts) (s : DiagSeverity) :
    bumpCount c s = cadd c (bumpCount czero s) := by
  cases s <;> (ext <;> simp [bumpCount, cadd, czero])

theorem cadd_assoc (a b c : DiagnosticCounts) :
    cadd (cadd a b) c = cadd a (cadd b c) := by
  ext <;> simp [cadd] <;> ring

theorem cadd_czero (a : DiagnosticCounts) : cadd a czero = a := by
  ext <;> simp [cadd, czero]

theorem foldl_bump (l : List LspDiagnostic) (c : DiagnosticCounts) :
    l.foldl (fun counts d => bumpCount counts d.severity) c =
      cadd c (countDiagnostics l) := by
  induction l generalizing c with
  | nil => simp [countDiagnostics, cadd_czero]
  | cons d rest ih =>
    show List.foldl _ (bumpCount c d.severity) rest = _
    rw [ih]
    have h2 : countDiagnostics (d :: rest) =
        cadd (bumpCount czero d.severity) (countDiagnostics rest) := by
      unfold countDiagnostics
      show List.foldl _ (bumpCount czero d.severity) rest = _
      rw [ih]
      rfl
    rw [h2, bump_eq_cadd c d.severity, cadd_assoc]

theorem aerase_cons_self {α : Type} (k₁ : String) (v₁ : α)
    (rest : List (String × α)) :
    aerase ((k₁, v₁) :: rest) k₁ = aerase rest k₁ := by
  simp [aerase]

theorem aerase_of_absent {α : Type} {l : List (String × α)} {k : String}
    (h : alookup l k = none) : aerase l k = l := by
  unfold aerase
  rw [List.filter_eq_self]
  intro q hq
  rw [alookup_eq_none_iff] at h
  simp [h q hq]

theorem recount_append (l₁ l₂ : List (String × List LspDiagnostic)) :
    recount (l₁ ++ l₂) = cadd (recount l₁) (recount l₂) := by
  induction l₁ with
  | nil =>
    simp [recount]
    ext <;> simp [cadd, czero]
  | cons p rest ih =>
    simp [recount, ih, cadd_assoc]

theorem recount_aset (m : List (String × List LspDiagnostic)) (k : String)
    (v : List LspDiagnostic) (h : nodupKeys m) :
    recount (aset m k v) =
      updateCounts (recount m)
        (countDiagnostics ((alookup m k).getD []))
        (countDiagnostics v) := by
  by_cases hs : (alookup m k).isSome
  · rw [aset_of_isSome m k v hs]
    induction m with
    | nil => simp [alookup] at hs
    | cons p rest ih =>
      obtain ⟨k₁, v₁⟩ := p
      by_cases h₁ : k₁ = k
      · subst h₁
        have hk : k₁ ∉ rest.map Prod.fst := by
          have h' := h
          unfold nodupKeys at h'
          simp only [List.map_cons] at h'
          exact (List.nodup_cons.mp h').1
        have hnotin : alookup rest k₁ = none := by
          rw [alookup_eq_none_iff]
          intro q hq hqk
          exact hk (hqk ▸ List.mem_map_of_mem Prod.fst hq)
        simp only [List.map_cons, if_true, eq_self_iff_true]
        rw [map_replace_of_absent v hnotin]
        simp only [alookup, if_pos rfl, recount, Option.getD_some]
        ext <;> simp [cadd, updateCounts] <;> ring
      · simp only [List.map_cons, if_neg h₁]
        have hrest : (alookup rest k).isSome := by
          simp [alookup, h₁] at hs
          exact hs
        have hnodup : nodupKeys rest := by
          unfold nodupKeys at h ⊢
          simp [List.nodup_cons] at h
          exact h.2
        have hlk : alookup ((k₁, v₁) :: rest) k = alookup rest k := by
          simp [alookup, h₁]
        rw [hlk]
        have := ih hnodup hrest
        simp only [recount]
        rw [this]
        ext <;> simp [cadd, updateCounts] <;> ring
  · unfold aset
    rw [if_neg hs]
    rw [recount_append, alookup_of_not_isSome hs]
    simp only [Option.getD_none, recount]
    ext <;> simp [cadd, czero, updateCounts, countDiagnostics]

theorem recount_aerase (m : List (String × List LspDiagnostic)) (k : String)
    (v : List LspDiagnostic) (h : nodupKeys m) (hl : alookup m k = some v) :
    recount (aerase m k) = updateCounts (recount m) (countDiagnostics v) czero := by
  induction m with
  | nil => simp [alookup] at hl
  | cons p rest ih =>
    obtain ⟨k₁, v₁⟩ := p
    by_cases h₁ : k₁ = k
    · subst h₁
      have hk : k₁ ∉ rest.map Prod.fst := by
        have h' := h
        unfold nodupKeys at h'
        simp only [List.map_cons] at h'
        exact (List.nodup_cons.mp h').1
      have hnotin : alookup rest k₁ = none := by
        rw [alookup_eq_none_iff]
        intro q hq hqk
        exact hk (hqk ▸ List.mem_map_of_mem Prod.fst hq)
      have hv : v₁ = v := by
        simp [alookup] at hl
        exact hl
      subst hv
      have herase : aerase ((k₁, v₁) :: rest) k₁ = rest := by
        rw [aerase_cons_self, aerase_of_absent hnotin]
      rw [herase]
      simp only [recount]
      ext <;> simp [cadd, czero, updateCounts]
    · have hnodup : nodupKeys rest := by
        unfold nodupKeys at h ⊢
        simp [List.nodup_cons] at h
        exact h.2
      have hlk : alookup rest k = some v := by
        simpa [alookup, h₁] using hl
      have herase : aerase ((k₁, v₁) :: rest) k = (k₁, v₁) :: aerase rest k := by
        simp [aerase, List.filter_cons, h₁]
      rw [herase]
      simp only [recount]
      rw [ih hnodup hlk]
      ext <;> simp [cadd, czero, updateCounts] <;> ring

theorem nodupKeys_aset {α : Type} {l : List (String × α)} (k : String)
    (v : α) (h : nodupKeys l) : nodupKeys (aset l k v) := by
  unfold aset
  by_cases hs : (alookup l k).isSome
  · rw [if_pos hs]
    unfold nodupKeys at h ⊢
    have hkeys : (l.map (fun p => if p.1 = k then (k, v) else p)).map Prod.fst =
        l.map Prod.fst := by
      rw [List.map_map]
      apply List.map_congr_left
      intro p _
      obtain ⟨k₁, v₁⟩ := p
      by_cases hp : k₁ = k <;> simp [Function.comp, hp]
    rw [hkeys]
    exact h
  · rw [if_neg hs]
    unfold nodupKeys at h ⊢
    rw [List.map_append]
    have hnone := alookup_of_not_isSome hs
    rw [alookup_eq_none_iff] at hnone
    simp only [List.map_cons, List.map_nil]
    rw [List.nodup_append]
    refine ⟨h, List.nodup_singleton k, ?_⟩
    intro a ha hb
    simp at hb
    subst hb
    obtain ⟨p, hp, hpa⟩ := List.mem_map.mp ha
    exact hnone p hp hpa

theorem nodupKeys_aerase {α : Type} {l : List (String × α)} (k : String)
    (h : nodupKeys l) : nodupKeys (aerase l k) := by
  unfold nodupKeys at h ⊢
  exact List.Nodup.sublist (List.Sublist.map Prod.fst (List.filter_sublist l)) h

/-- The store invariant preserved by every diagnostics operation. -/
def storeInv (s : LspStoreState) : Prop :=
  s.diagnosticsCounts = recount s.diagnosticsByFile ∧
  nodupKeys s.diagnosticsByFile

theorem storeInv_applyStoreOp (s : LspStoreState) (op : StoreOp)
    (h : storeInv s) : storeInv (applyStoreOp s op) := by
  obtain ⟨hc, hn⟩ := h
  cases op with
  | setDiags uri diagnostics =>
    show storeInv (setDiagnostics s uri diagnostics)
    constructor
    · show updateCounts s.diagnosticsCounts
          (countDiagnostics ((alookup s.diagnosticsByFile (uriToFilePath uri)).getD []))
          (countDiagnostics ((toLspDiagnostics (uriToFilePath uri) diagnostics).filter
            (storeSeverityVisible s))) =
        recount (aset s.diagnosticsByFile (uriToFilePath uri)
          ((toLspDiagnostics (uriToFilePath uri) diagnostics).filter
            (storeSeverityVisible s)))
      rw [recount_aset _ _ _ hn, hc]
    · show nodupKeys (aset s.diagnosticsByFile (uriToFilePath uri)
        ((toLspDiagnostics (uriToFilePath uri) diagnostics).filter
          (storeSeverityVisible s)))
      exact nodupKeys_aset _ _ hn
  | clearDiags uri =>
    show storeInv (clearDiagnostics s uri)
    unfold clearDiagnostics
    cases hl : alookup s.diagnosticsByFile (uriToFilePath uri) with
    | none => simp only [hl]; exact ⟨hc, hn⟩
    | some old =>
      simp only [hl]
      constructor
      · show updateCounts s.diagnosticsCounts (countDiagnostics old) czero =
          recount (aerase s.diagnosticsByFile (uriToFilePath uri))
        rw [recount_aerase _ _ old hn hl, hc]
      · show nodupKeys (aerase s.diagnosticsByFile (uriToFilePath uri))
        exact nodupKeys_aerase _ hn
  | clearAll =>
    exact ⟨rfl, List.nodup_nil⟩

theorem storeInv_runStoreOps (ops : List StoreOp) :
    storeInv (runStoreOps ops) := by
  have hinit : storeInv LspStoreState.initial := ⟨rfl, List.nodup_nil⟩
  unfold runStoreOps
  generalize LspStoreState.initial = s at hinit ⊢
  induction ops generalizing s with
  | nil => exact hinit
  | cons op rest ih =>
    exact ih (applyStoreOp s op) (storeInv_applyStoreOp s op hinit)

/-- C9: after any sequence of setDiagnostics / clearDiagnostics /
clearAllDiagnostics operations from the initial store state, the
`diagnosticsCounts` maintained by O(1) delta updates equals the
per-severity recount of all diagnostics stored in `diagnosticsByFile`. -/
theorem c9_counts_match_recount (ops : List StoreOp) :
    (runStoreOps ops).diagnosticsCounts =
      recount (runStoreOps ops).diagnosticsByFile :=
  (storeInv_runStoreOps ops).1

end Talkcody
